import Mathlib

/-!
Verification of the SOAP client's envelope model and response decoder.

The embedding works at the XML token-tree level: element names are
represented as the Go decoder resolves them (`xml.Name` with `Space` and
`Local`), a document is a tree of elements and character data, and the
stateful token loop of `ResponseSOAPBody.UnmarshalXML` becomes a
recursive function over the list of body children.
-/

namespace SoapClient

/-- Go `xml.Name`: a resolved XML name (namespace/prefix and local part). -/
structure XName where
  Space : String
  Local : String
deriving DecidableEq, Repr

/-- Go `xml.Attr`: one attribute. -/
structure XAttr where
  name : XName
  value : String
deriving DecidableEq, Repr

/-- A well-formed XML fragment as the decoder presents it: an element with
resolved name, attributes and children, or character data.  Go struct
fields holding opaque payloads (`interface{}`) are modelled as the `Node`
their marshalled form corresponds to. -/
inductive Node where
  | element (name : XName) (attrs : List XAttr) (children : List Node)
  | text (s : String)

/-- The SOAP 1.1 envelope namespace, `v2/client.go` and `request.go`. -/
def soapNamespace : String := "http://schemas.xmlsoap.org/soap/envelope/"

/-- Go `Fault` struct from the v2 package.  The Go field order is
`Code, String, Actor, Detail`; the field named `String` is declared last
here so that the other fields' type ascriptions still refer to the
`String` type. -/
structure Fault where
  Code : String
  Actor : String
  Detail : String
  String : String
deriving DecidableEq, Repr

/-- `Fault.Error`: `fmt.Sprintf("Soap Fault: %s: [%s] %s", f.Code, f.Actor, f.String)`.
The result type is left to inference because inside the `Fault` namespace
the identifier `String` resolves to the `Fault.String` projection. -/
def Fault.Error (f : Fault) :=
  "Soap Fault: " ++ f.Code ++ ": [" ++ f.Actor ++ "] " ++ f.String

/-- Direct character data of an element's child list, concatenated in
order.  Models what Go's decoder collects into a string field (nested
elements are skipped via `d.Skip()`, so only direct `CharData` counts). -/
def directText (children : List Node) : String :=
  children.foldl
    (fun acc ch =>
      match ch with
      | Node.text s => acc ++ s
      | Node.element _ _ _ => acc)
    ""

/-- `d.DecodeElement(b.Fault, &se)`: decoding a soap Fault element's
children into the `Fault` struct.  Each child element is matched by local
name against the field tags `faultcode`, `faultstring`, `faultactor`,
`detail`; repeated occurrences overwrite (last wins); unknown children
are ignored. -/
def decodeFault (children : List Node) : Fault :=
  children.foldl
    (fun f ch =>
      match ch with
      | Node.element n _ cc =>
        if n.Local == "faultcode" then { f with Code := directText cc }
        else if n.Local == "faultstring" then { f with String := directText cc }
        else if n.Local == "faultactor" then { f with Actor := directText cc }
        else if n.Local == "detail" then { f with Detail := directText cc }
        else f
      | Node.text _ => f)
    { Code := "", Actor := "", Detail := "", String := "" }

/-- Error message of `v2/client.go` line 65. -/
def multipleElementsMsg : String :=
  "Found multiple elements inside SOAP body; not wrapped-document/literal WS-I compliant"

/-- Error message of `v2/client.go` line 43. -/
def nilContentMsg : String := "Content must be a pointer to a struct"

/-- Result of running `ResponseSOAPBody.UnmarshalXML`: the error (if any),
the resolved `b.Fault`, and the state of the destination object that
`b.Content` points at. -/
structure BodyOut where
  err : Option String
  Fault : Option Fault
  dest : Node

/-- The token loop of `ResponseSOAPBody.UnmarshalXML` (v2/client.go lines
52 to 86), as a recursion over the body's child nodes.  `consumed` is the
one-element flag; a second start element yields the WS-I error; a
soap-namespace `Fault` start is decoded into `b.Fault` leaving the
destination untouched (`b.Content = nil` drops only the pointer); any
other start element is decoded into the destination; character data is
ignored; the list end is the body's `EndElement`. -/
def bodyLoop (consumed : Bool) (fault : Option Fault) (dest : Node) :
    List Node → BodyOut
  | [] => { err := none, Fault := fault, dest := dest }
  | Node.text _ :: rest => bodyLoop consumed fault dest rest
  | Node.element n attrs children :: rest =>
    if consumed then { err := some multipleElementsMsg, Fault := fault, dest := dest }
    else if n.Space == soapNamespace && n.Local == "Fault" then
      bodyLoop true (some (decodeFault children)) dest rest
    else
      bodyLoop true fault (Node.element n attrs children) rest

/-- The child scan of `xml.Unmarshal` over `ResponseSOAPEnvelope`'s
children: an element whose local name is `Body` runs
`ResponseSOAPBody.UnmarshalXML` (first checking the nil-destination
guard of line 42); every other child (the `Header`, whose `interface{}`
field makes Go skip its content, and unknown elements) is ignored.
Returns (error, `env.Body.Fault`, destination state). -/
def parseChildren (fault : Option Fault) (dest : Option Node) :
    List Node → Option String × Option Fault × Option Node
  | [] => (none, fault, dest)
  | Node.text _ :: rest => parseChildren fault dest rest
  | Node.element n _ c :: rest =>
    if n.Local == "Body" then
      match dest with
      | none => (some nilContentMsg, fault, none)
      | some d =>
        match bodyLoop false fault d c with
        | { err := some e, Fault := f, dest := d2 } => (some e, f, some d2)
        | { err := none, Fault := f, dest := d2 } => parseChildren f (some d2) rest
    else parseChildren fault dest rest

/-- The two kinds of error `Parse` can return: a protocol `Fault`
(returned as the error value itself) or a decode error
(`xml.UnmarshalError` / syntax errors), distinguishable by type. -/
inductive SoapErr where
  | faultErr (f : Fault)
  | decodeErr (msg : String)
deriving DecidableEq, Repr

/-- The `Error()` string of either error kind. -/
def SoapErr.message : SoapErr → String
  | .faultErr f => f.Error
  | .decodeErr m => m

/-- `Parse(data, v)` from v2/client.go lines 91 to 102, over an already
tokenised document.  `v = none` models a nil destination interface.  The
root must have local name `Envelope` (the `XMLName xml:"Envelope"` tag of
`ResponseSOAPEnvelope`); decode errors abort `xml.Unmarshal` and are
returned first; otherwise a resolved `env.Body.Fault` is returned as the
error.  The second component is the final state of the destination
object. -/
def Parse (doc : Node) (v : Option Node) : Option SoapErr × Option Node :=
  match doc with
  | Node.text _ => (some (SoapErr.decodeErr "EOF"), v)
  | Node.element n _ children =>
    if n.Local == "Envelope" then
      match parseChildren none v children with
      | (some e, _, d) => (some (SoapErr.decodeErr e), d)
      | (none, some f, d) => (some (SoapErr.faultErr f), d)
      | (none, none, d) => (none, d)
    else
      (some (SoapErr.decodeErr ("expected element type <Envelope> but have <" ++ n.Local ++ ">")), v)

/-- The `RequestSOAPHeader` struct of request.go.  `Header : none` models
the Go zero value (nil `[]interface{}` slice); each header element is the
`Node` its marshalled form corresponds to. -/
structure RequestSOAPHeader where
  Header : Option (List Node)

/-- The `RequestSOAPBody` struct of request.go: an optional `Fault` and
an optional opaque content payload (`none` models a nil `interface{}`). -/
structure RequestSOAPBody where
  Fault : Option Fault
  Content : Option Node

/-- The `Request` struct of request.go: envelope attributes, header and
body, plus per-request transport configuration (all strings default to
`""`, Go's zero value, which doubles as the "unset" sentinel). -/
structure Request where
  Attributes : List XAttr
  Header : RequestSOAPHeader
  Body : RequestSOAPBody
  path : String
  username : String
  password : String
  bearerToken : String
  userAgent : String
  contentType : String
  action : String

/-- The default attribute set by `NewRequest`: local name `soapenv`,
value the SOAP envelope namespace.  Note this is a plain attribute
(`xml.Name{Local: "soapenv"}`), not an `xmlns:` declaration. -/
def defaultSoapenvAttr : XAttr :=
  { name := { Space := "", Local := "soapenv" }, value := soapNamespace }

/-- `NewRequest(path, body, header, options...)` from request.go lines
148 to 170.  The attribute list starts as exactly the default `soapenv`
attribute; the header block is attached only when the caller passes a
non-nil header slice; the body content is the given payload.  The
`options` parameter is declared by the source but never applied inside
`NewRequest` (the source contains no loop over `options`), so it is
ignored here exactly as in the code. -/
def NewRequest (path : String) (body : Option Node) (header : Option (List Node))
    (options : List (Request → Request)) : Request :=
  let envelope : Request :=
    { Attributes := [defaultSoapenvAttr]
      Header := { Header := none }
      Body := { Fault := none, Content := body }
      path := path
      username := ""
      password := ""
      bearerToken := ""
      userAgent := ""
      contentType := ""
      action := "" }
  match header with
  | some h => { envelope with Header := { Header := some h } }
  | none => envelope

/-- Option `BasicAuth` of request.go (always returns a nil error in Go,
so options are modelled as plain `Request → Request` functions). -/
def BasicAuth (username : String) (password : String) : Request → Request :=
  fun request => { request with username := username, password := password }

/-- Option `UserAgent` of request.go. -/
def UserAgent (userAgent : String) : Request → Request :=
  fun request => { request with userAgent := userAgent }

/-- Option `ContentType` of request.go. -/
def ContentType (contentType : String) : Request → Request :=
  fun request => { request with contentType := contentType }

/-- Option `Action` of request.go. -/
def Action (action : String) : Request → Request :=
  fun request => { request with action := action }

/-- Option `BearerToken` of request.go. -/
def BearerToken (token : String) : Request → Request :=
  fun request => { request with bearerToken := token }

/-- Option `AddAttributes` of request.go lines 216 to 244: if the new
attributes contain one with local name `soapenv`, every existing
`soapenv` attribute is filtered out first; then the new attributes are
appended to the remaining ones. -/
def AddAttributes (attributes : List XAttr) : Request → Request :=
  let found := attributes.any (fun a => a.name.Local == "soapenv")
  fun request =>
    let requestAttributes := request.Attributes
    let requestAttributes :=
      if found then requestAttributes.filter (fun a => a.name.Local != "soapenv")
      else requestAttributes
    { request with Attributes := requestAttributes ++ attributes }

/-- The element a marshalled `Fault` value corresponds to (fields are
`omitempty`, so empty strings produce no child element).  `NewRequest`
never populates `Body.Fault`; this exists so `Request.Serialize` is
total over `Request`. -/
def Fault.toNode (f : Fault) : Node :=
  Node.element { Space := soapNamespace, Local := "Fault" } []
    ((if f.Code == "" then [] else
        [Node.element { Space := "", Local := "faultcode" } [] [Node.text f.Code]]) ++
     (if f.String == "" then [] else
        [Node.element { Space := "", Local := "faultstring" } [] [Node.text f.String]]) ++
     (if f.Actor == "" then [] else
        [Node.element { Space := "", Local := "faultactor" } [] [Node.text f.Actor]]) ++
     (if f.Detail == "" then [] else
        [Node.element { Space := "", Local := "detail" } [] [Node.text f.Detail]]))

/-- `Request.Serialize` from request.go lines 247 to 261, at the node
level: the output, as a decoder resolves it.  The root is
`<soapenv:Envelope>` carrying the attribute list (the `soapenv` prefix is
never bound by an `xmlns:` declaration, so the decoder resolves it to
the literal prefix).  The `Header` field is a value struct without
`omitempty`, so Go's encoder always emits the `<soapenv:Header>` element,
with the header elements as children when present and empty otherwise.
The body holds the marshalled `Fault` (nil pointer omitted) followed by
the marshalled content (nil interface omitted). -/
def Request.Serialize (r : Request) : Node :=
  Node.element { Space := "soapenv", Local := "Envelope" } r.Attributes
    [ Node.element { Space := "soapenv", Local := "Header" } [] (r.Header.Header.getD []),
      Node.element { Space := "soapenv", Local := "Body" } []
        ((match r.Body.Fault with
          | some f => [f.toNode]
          | none => []) ++
         (match r.Body.Content with
          | some c => [c]
          | none => [])) ]

/-- The `Client` struct of v2/client.go (the injected `httpClient` is
outside the model; all configuration strings default to `""`). -/
structure Client where
  base : String
  debug : Bool
  username : String
  password : String
  bearerToken : String
  userAgent : String
  contentType : String
  action : String

/-- The `Content-Type` header value chosen by `Client.CallWithContext`
(v2/client.go lines 252 to 258): per-request value if non-empty, else
client default if non-empty, else the hardcoded fallback. -/
def callContentType (soapReq : Request) (c : Client) : String :=
  if soapReq.contentType != "" then soapReq.contentType
  else if c.contentType != "" then c.contentType
  else "text/xml; charset=\"utf-8\""

/-- The `User-Agent` header value chosen by `Client.CallWithContext`
(v2/client.go lines 266 to 272): per-request value if non-empty, else
client default if non-empty, else `"Go"`. -/
def callUserAgent (soapReq : Request) (c : Client) : String :=
  if soapReq.userAgent != "" then soapReq.userAgent
  else if c.userAgent != "" then c.userAgent
  else "Go"

/-- The response-body handling of `Client.CallWithContext` (v2/client.go
lines 294 to 309) after a successful HTTP exchange and `ReadAll`: a
zero-length raw body returns success immediately, otherwise the bytes
are handed to `Parse`.  The parsing step is abstracted as a parameter so
that theorems can quantify over it: a result that is independent of
`parse` demonstrates that `Parse` is not invoked. -/
def handleResponseBody (parse : String → Option Node → Option SoapErr × Option Node)
    (rawbody : String) (response : Option Node) : Option SoapErr × Option Node :=
  if rawbody.length = 0 then (none, response)
  else parse rawbody response

/-- Whether a node is character data. -/
def isText : Node → Bool
  | Node.text _ => true
  | Node.element _ _ _ => false

/-- Whether a node is an element. -/
def isElem : Node → Bool
  | Node.element _ _ _ => true
  | Node.text _ => false

/-- Number of element nodes in a child list (the "top-level child
elements" of a body). -/
def countElems (l : List Node) : Nat := (l.filter isElem).length

/-- Whether a node is an element with local name `Body`. -/
def isBodyElem : Node → Bool
  | Node.element n _ _ => n.Local == "Body"
  | Node.text _ => false

/-- `true` when no node of the list is a `Body` element. -/
def noBodyElem (l : List Node) : Bool := l.all (fun x => !isBodyElem x)

/-- An envelope document with local name `Envelope`, arbitrary siblings
around a single `Body` element.  Shared input shape for the `Parse`
theorems. -/
def mkEnvelopeDoc (espace : String) (eattrs : List XAttr) (pre : List Node)
    (bspace : String) (battrs : List XAttr) (bs : List Node) (post : List Node) : Node :=
  Node.element { Space := espace, Local := "Envelope" } eattrs
    (pre ++ Node.element { Space := bspace, Local := "Body" } battrs bs :: post)

/-- Whether a serialized envelope has a direct child element with local
name `Header`. -/
def envelopeHasHeaderElement : Node → Bool
  | Node.element _ _ children =>
    children.any (fun c =>
      match c with
      | Node.element n _ _ => n.Local == "Header"
      | Node.text _ => false)
  | Node.text _ => false

/-- The attribute list of a document's root element. -/
def rootAttrs : Node → List XAttr
  | Node.element _ a _ => a
  | Node.text _ => []

theorem countElems_cons_text (s : String) (l : List Node) :
    countElems (Node.text s :: l) = countElems l := by
  simp [countElems, List.filter, isElem]

theorem countElems_cons_elem (n : XName) (a : List XAttr) (c : List Node) (l : List Node) :
    countElems (Node.element n a c :: l) = countElems l + 1 := by
  simp [countElems, List.filter, isElem]

theorem bodyLoop_no_elems (l : List Node) (h : countElems l = 0) (consumed : Bool)
    (fault : Option Fault) (dest : Node) :
    bodyLoop consumed fault dest l = { err := none, Fault := fault, dest := dest } := by
  induction l generalizing consumed fault dest with
  | nil => rfl
  | cons x rest ih =>
    cases x with
    | text s =>
      rw [countElems_cons_text] at h
      rw [bodyLoop, ih h]
    | element n a c =>
      rw [countElems_cons_elem] at h
      omega

theorem bodyLoop_consumed_err (l : List Node) (h : 1 ≤ countElems l)
    (fault : Option Fault) (dest : Node) :
    bodyLoop true fault dest l = { err := some multipleElementsMsg, Fault := fault, dest := dest } := by
  induction l generalizing fault dest with
  | nil => rw [countElems] at h; simp [List.filter] at h
  | cons x rest ih =>
    cases x with
    | text s =>
      rw [countElems_cons_text] at h
      rw [bodyLoop, ih h]
    | element n a c =>
      rw [bodyLoop]
      simp

theorem bodyLoop_single (t1 : List Node) (h1 : countElems t1 = 0) (n : XName)
    (a : List XAttr) (c : List Node) (t2 : List Node) (h2 : countElems t2 = 0)
    (fault : Option Fault) (dest : Node) :
    bodyLoop false fault dest (t1 ++ Node.element n a c :: t2) =
      (if n.Space == soapNamespace && n.Local == "Fault" then
        { err := none, Fault := some (decodeFault c), dest := dest }
      else
        { err := none, Fault := fault, dest := Node.element n a c }) := by
  induction t1 generalizing fault dest with
  | nil =>
    rw [List.nil_append, bodyLoop]
    simp only [Bool.false_eq_true, if_false]
    split
    case isTrue => rw [bodyLoop_no_elems t2 h2]
    case isFalse => rw [bodyLoop_no_elems t2 h2]
  | cons x rest ih =>
    cases x with
    | text s =>
      rw [countElems_cons_text] at h1
      rw [List.cons_append, bodyLoop, ih h1]
    | element n0 a0 c0 =>
      rw [countElems_cons_elem] at h1
      omega

theorem bodyLoop_first_then_more (t1 : List Node) (h1 : countElems t1 = 0) (n : XName)
    (a : List XAttr) (c : List Node) (rest : List Node) (h2 : 1 ≤ countElems rest)
    (fault : Option Fault) (dest : Node) :
    bodyLoop false fault dest (t1 ++ Node.element n a c :: rest) =
      (if n.Space == soapNamespace && n.Local == "Fault" then
        { err := some multipleElementsMsg, Fault := some (decodeFault c), dest := dest }
      else
        { err := some multipleElementsMsg, Fault := fault, dest := Node.element n a c }) := by
  induction t1 generalizing fault dest with
  | nil =>
    rw [List.nil_append, bodyLoop]
    simp only [Bool.false_eq_true, if_false]
    split
    case isTrue => rw [bodyLoop_consumed_err rest h2]
    case isFalse => rw [bodyLoop_consumed_err rest h2]
  | cons x rest0 ih =>
    cases x with
    | text s =>
      rw [countElems_cons_text] at h1
      rw [List.cons_append, bodyLoop, ih h1]
    | element n0 a0 c0 =>
      rw [countElems_cons_elem] at h1
      omega

theorem bodyLoop_two_err (l : List Node) (h : 2 ≤ countElems l)
    (fault : Option Fault) (dest : Node) :
    (bodyLoop false fault dest l).err = some multipleElementsMsg := by
  induction l generalizing fault dest with
  | nil => rw [countElems] at h; simp [List.filter] at h
  | cons x rest ih =>
    cases x with
    | text s =>
      rw [countElems_cons_text] at h
      rw [bodyLoop]
      exact ih h fault dest
    | element n a c =>
      rw [countElems_cons_elem] at h
      rw [bodyLoop]
      simp only [Bool.false_eq_true, if_false]
      split
      case isTrue => rw [bodyLoop_consumed_err rest (by omega)]
      case isFalse => rw [bodyLoop_consumed_err rest (by omega)]

theorem bodyLoop_le_one_err (l : List Node) (h : countElems l ≤ 1)
    (fault : Option Fault) (dest : Node) :
    (bodyLoop false fault dest l).err = none := by
  induction l generalizing fault dest with
  | nil => rfl
  | cons x rest ih =>
    cases x with
    | text s =>
      rw [countElems_cons_text] at h
      rw [bodyLoop]
      exact ih h fault dest
    | element n a c =>
      rw [countElems_cons_elem] at h
      rw [bodyLoop]
      simp only [Bool.false_eq_true, if_false]
      split
      case isTrue => rw [bodyLoop_no_elems rest (by omega)]
      case isFalse => rw [bodyLoop_no_elems rest (by omega)]

theorem parseChildren_cons_not_body (n : XName) (a : List XAttr) (c : List Node)
    (rest : List Node) (fault : Option Fault) (dest : Option Node)
    (hn : (n.Local == "Body") = false) :
    parseChildren fault dest (Node.element n a c :: rest) = parseChildren fault dest rest := by
  rw [parseChildren.eq_def]
  simp [hn]

theorem parseChildren_cons_body_nil (n : XName) (a : List XAttr) (c : List Node)
    (rest : List Node) (fault : Option Fault) (hn : (n.Local == "Body") = true) :
    parseChildren fault none (Node.element n a c :: rest) = (some nilContentMsg, fault, none) := by
  rw [parseChildren.eq_def]
  simp [hn]

theorem parseChildren_no_body (l : List Node) (h : noBodyElem l = true)
    (fault : Option Fault) (dest : Option Node) :
    parseChildren fault dest l = (none, fault, dest) := by
  induction l generalizing fault dest with
  | nil => rfl
  | cons x rest ih =>
    rw [noBodyElem, List.all_cons, Bool.and_eq_true] at h
    cases x with
    | text s =>
      rw [parseChildren]
      exact ih h.2 fault dest
    | element n a c =>
      have hn : (n.Local == "Body") = false := by
        have := h.1
        simpa [isBodyElem] using this
      rw [parseChildren_cons_not_body n a c rest fault dest hn]
      exact ih h.2 fault dest

theorem parseChildren_append_no_body (pre : List Node) (h : noBodyElem pre = true)
    (rest : List Node) (fault : Option Fault) (dest : Option Node) :
    parseChildren fault dest (pre ++ rest) = parseChildren fault dest rest := by
  induction pre generalizing fault dest with
  | nil => rw [List.nil_append]
  | cons x pre0 ih =>
    rw [noBodyElem, List.all_cons, Bool.and_eq_true] at h
    cases x with
    | text s =>
      rw [List.cons_append, parseChildren]
      exact ih h.2 fault dest
    | element n a c =>
      have hn : (n.Local == "Body") = false := by
        have := h.1
        simpa [isBodyElem] using this
      rw [List.cons_append, parseChildren_cons_not_body n a c (pre0 ++ rest) fault dest hn]
      exact ih h.2 fault dest

theorem parseChildren_nil_dest (l : List Node) (h : l.any isBodyElem = true)
    (fault : Option Fault) :
    parseChildren fault none l = (some nilContentMsg, fault, none) := by
  induction l generalizing fault with
  | nil => simp [List.any] at h
  | cons x rest ih =>
    rw [List.any_cons, Bool.or_eq_true] at h
    cases x with
    | text s =>
      rw [parseChildren]
      cases h with
      | inl h0 => simp [isBodyElem] at h0
      | inr h0 => exact ih h0 fault
    | element n a c =>
      by_cases hn : (n.Local == "Body") = true
      · rw [parseChildren_cons_body_nil n a c rest fault hn]
      · rw [Bool.not_eq_true] at hn
        rw [parseChildren_cons_not_body n a c rest fault none hn]
        cases h with
        | inl h0 => rw [isBodyElem] at h0; exact absurd h0 (by simp [hn])
        | inr h0 => exact ih h0 fault

theorem parseChildren_body_cons (bspace : String) (battrs : List XAttr) (bs : List Node)
    (rest : List Node) (fault : Option Fault) (d0 : Node) :
    parseChildren fault (some d0)
        (Node.element { Space := bspace, Local := "Body" } battrs bs :: rest) =
      (match bodyLoop false fault d0 bs with
       | { err := some e, Fault := f2, dest := d2 } => (some e, f2, some d2)
       | { err := none, Fault := f2, dest := d2 } => parseChildren f2 (some d2) rest) := by
  rw [parseChildren.eq_def]
  simp

theorem Parse_one_body (espace : String) (eattrs : List XAttr) (pre : List Node)
    (bspace : String) (battrs : List XAttr) (bs : List Node) (post : List Node)
    (d0 : Node) (hpre : noBodyElem pre = true) (hpost : noBodyElem post = true) :
    Parse (mkEnvelopeDoc espace eattrs pre bspace battrs bs post) (some d0) =
      (match bodyLoop false none d0 bs with
       | { err := some e, Fault := _, dest := d2 } => (some (SoapErr.decodeErr e), some d2)
       | { err := none, Fault := some f, dest := d2 } => (some (SoapErr.faultErr f), some d2)
       | { err := none, Fault := none, dest := d2 } => (none, some d2)) := by
  rw [mkEnvelopeDoc, Parse]
  simp only [beq_self_eq_true, if_true]
  rw [parseChildren_append_no_body pre hpre, parseChildren_body_cons]
  cases hb : bodyLoop false none d0 bs with
  | mk err f2 d2 =>
    cases err with
    | some e => simp
    | none =>
      simp only
      rw [parseChildren_no_body post hpost]
      cases f2 with
      | some f => simp
      | none => simp

/-- The fault children used by the C1 witness. -/
def sampleFaultChildren : List Node :=
  [Node.element { Space := "", Local := "faultcode" } [] [Node.text "Server.Error"],
   Node.element { Space := "", Local := "faultstring" } [] [Node.text "boom"],
   Node.element { Space := "", Local := "faultactor" } [] [Node.text "svc"]]

/-- Claim C1: for every response whose body's only child element is a
SOAP-envelope-namespace `Fault` element whose fields decode to code
`"Server.Error"`, actor `"svc"`, string `"boom"`, `Parse` returns the
fault as its error, the error message is exactly
`"Soap Fault: Server.Error: [svc] boom"`, and the destination object is
left unmodified. -/
theorem parse_fault_reports_fault_message (espace : String) (eattrs : List XAttr)
    (pre post : List Node) (bspace : String) (battrs : List XAttr)
    (t1 t2 : List Node) (fattrs : List XAttr) (cs : List Node) (d0 : Node) (dt : String)
    (hpre : noBodyElem pre = true) (hpost : noBodyElem post = true)
    (ht1 : countElems t1 = 0) (ht2 : countElems t2 = 0)
    (hf : decodeFault cs =
      { Code := "Server.Error", Actor := "svc", Detail := dt, String := "boom" }) :
    Parse (mkEnvelopeDoc espace eattrs pre bspace battrs
        (t1 ++ Node.element { Space := soapNamespace, Local := "Fault" } fattrs cs :: t2) post)
      (some d0) =
      (some (SoapErr.faultErr (decodeFault cs)), some d0) ∧
    SoapErr.message (SoapErr.faultErr (decodeFault cs)) =
      "Soap Fault: Server.Error: [svc] boom" := by
  constructor
  · rw [Parse_one_body espace eattrs pre bspace battrs _ post d0 hpre hpost,
        bodyLoop_single t1 ht1 _ fattrs cs t2 ht2]
    simp
  · rw [SoapErr.message, hf]
    rfl

/-- Witness for C1 at a concrete fault response. -/
theorem parse_fault_reports_fault_message_witness :
    Parse (mkEnvelopeDoc "soapenv" [] [] "soapenv" []
        ([] ++ Node.element { Space := soapNamespace, Local := "Fault" } []
            sampleFaultChildren :: []) [])
      (some (Node.text "init")) =
      (some (SoapErr.faultErr (decodeFault sampleFaultChildren)), some (Node.text "init")) ∧
    SoapErr.message (SoapErr.faultErr (decodeFault sampleFaultChildren)) =
      "Soap Fault: Server.Error: [svc] boom" :=
  parse_fault_reports_fault_message "soapenv" [] [] [] "soapenv" [] [] [] []
    sampleFaultChildren (Node.text "init") "" rfl rfl rfl rfl rfl

/-- Counterexample to C2 as stated: a body with two sibling application
elements returns the WS-I decode error, but the destination is NOT left
untouched — it already holds the decode of the first element. -/
theorem parse_multi_element_modifies_destination :
    Parse (mkEnvelopeDoc "s" [] [] "s" []
        [Node.element { Space := "", Local := "First" } [] [],
         Node.element { Space := "", Local := "Second" } [] []] [])
      (some (Node.text "init")) =
      (some (SoapErr.decodeErr multipleElementsMsg),
       some (Node.element { Space := "", Local := "First" } [] [])) ∧
    Node.element { Space := "", Local := "First" } [] [] ≠ Node.text "init" :=
  ⟨rfl, fun h => Node.noConfusion h⟩

/-- Claim C2 as amended: with a non-null destination, `Parse` fails with
the WS-I non-compliance decode error exactly when the body has two or
more top-level child elements; zero child elements yield no error and an
untouched destination; and when the multi-element error is returned the
destination holds the decode of the first child element (unchanged only
when that element was a soap Fault). -/
theorem parse_multi_element_iff (espace : String) (eattrs : List XAttr)
    (pre : List Node) (bspace : String) (battrs : List XAttr)
    (bs post : List Node) (d0 : Node)
    (hpre : noBodyElem pre = true) (hpost : noBodyElem post = true) :
    ((Parse (mkEnvelopeDoc espace eattrs pre bspace battrs bs post) (some d0)).1 =
        some (SoapErr.decodeErr multipleElementsMsg) ↔ 2 ≤ countElems bs) ∧
    (countElems bs = 0 →
      Parse (mkEnvelopeDoc espace eattrs pre bspace battrs bs post) (some d0) =
        (none, some d0)) ∧
    (∀ t1 n a c rest, bs = t1 ++ Node.element n a c :: rest → countElems t1 = 0 →
      1 ≤ countElems rest →
      (Parse (mkEnvelopeDoc espace eattrs pre bspace battrs bs post) (some d0)).2 =
        some (if n.Space == soapNamespace && n.Local == "Fault" then d0
              else Node.element n a c)) := by
  rw [Parse_one_body espace eattrs pre bspace battrs bs post d0 hpre hpost]
  refine ⟨?_, ?_, ?_⟩
  · constructor
    · intro h
      by_contra hc
      have hle : countElems bs ≤ 1 := by omega
      have herr := bodyLoop_le_one_err bs hle none d0
      cases hb : bodyLoop false none d0 bs with
      | mk err f2 d2 =>
        rw [hb] at herr h
        simp only at herr
        subst herr
        cases f2 with
        | some f => simp at h
        | none => simp at h
    · intro h
      have herr := bodyLoop_two_err bs h none d0
      cases hb : bodyLoop false none d0 bs with
      | mk err f2 d2 =>
        rw [hb] at herr
        simp only at herr
        subst herr
        rfl
  · intro h
    rw [bodyLoop_no_elems bs h]
  · intro t1 n a c rest hbs ht1 hrest
    subst hbs
    rw [bodyLoop_first_then_more t1 ht1 n a c rest hrest]
    by_cases hcond : (n.Space == soapNamespace && n.Local == "Fault") = true
    · simp [hcond]
    · rw [Bool.not_eq_true] at hcond
      simp [hcond]

/-- Witness for C2 (amended) at a concrete two-element body. -/
theorem parse_multi_element_iff_witness :
    (Parse (mkEnvelopeDoc "s" [] [] "s" []
        [Node.element { Space := "", Local := "A" } [] [],
         Node.element { Space := "", Local := "B" } [] []] [])
      (some (Node.text "init"))).1 =
      some (SoapErr.decodeErr multipleElementsMsg) :=
  (parse_multi_element_iff "s" [] [] "s" []
    [Node.element { Space := "", Local := "A" } [] [],
     Node.element { Space := "", Local := "B" } [] []] [] (Node.text "init")
    rfl rfl).1.mpr (by decide)

/-- Counterexample to C3 as stated: an envelope constructed with no
header elements still serializes with a (empty) `Header` element present
in the output, because the `Header` field is a value struct that Go's
encoder always emits. -/
theorem serialize_emits_empty_header_tag :
    envelopeHasHeaderElement (Request.Serialize
        (NewRequest "p" (some (Node.element { Space := "", Local := "Op" } [] [])) none [])) =
      true := rfl

/-- Claim C3 as amended: an envelope constructed with no header elements
serializes with an EMPTY `Header` element (no header children) — the
Header tag is emitted, not omitted. -/
theorem serialize_no_header_shape (path : String) (content : Option Node)
    (opts : List (Request → Request)) :
    Request.Serialize (NewRequest path content none opts) =
      Node.element { Space := "soapenv", Local := "Envelope" } [defaultSoapenvAttr]
        [Node.element { Space := "soapenv", Local := "Header" } [] [],
         Node.element { Space := "soapenv", Local := "Body" } [] content.toList] := by
  cases content <;> rfl

/-- Claim C4: when the HTTP exchange succeeds with a zero-length response
body, the call returns no error, leaves the destination untouched, and
never hands the buffer to the XML parsing step — the result is the same
for EVERY possible parse function, so `Parse` is not invoked. -/
theorem empty_body_skips_parsing
    (parse : String → Option Node → Option SoapErr × Option Node)
    (rawbody : String) (response : Option Node) (h : rawbody.length = 0) :
    handleResponseBody parse rawbody response = (none, response) := by
  rw [handleResponseBody, if_pos h]

/-- Witness for C4 at the empty byte buffer, with a parse function that
would fail if it were invoked. -/
theorem empty_body_skips_parsing_witness :
    handleResponseBody (fun _ d => (some (SoapErr.decodeErr "EOF"), d)) "" none =
      (none, none) :=
  empty_body_skips_parsing (fun _ d => (some (SoapErr.decodeErr "EOF"), d)) "" none rfl

/-- Claim C5: parsing a structurally valid envelope that contains a Body
element with a nil destination fails fast with the descriptive error
`"Content must be a pointer to a struct"` rather than silently
succeeding. -/
theorem parse_nil_destination_fails (espace : String) (eattrs : List XAttr)
    (children : List Node) (h : children.any isBodyElem = true) :
    Parse (Node.element { Space := espace, Local := "Envelope" } eattrs children) none =
      (some (SoapErr.decodeErr nilContentMsg), none) := by
  rw [Parse.eq_def]
  simp only [beq_self_eq_true, if_true]
  rw [parseChildren_nil_dest children h none]

/-- Witness for C5 at a concrete envelope with a non-empty body. -/
theorem parse_nil_destination_fails_witness :
    Parse (Node.element { Space := "s", Local := "Envelope" } []
        [Node.element { Space := "s", Local := "Body" } []
          [Node.element { Space := "", Local := "X" } [] []]]) none =
      (some (SoapErr.decodeErr nilContentMsg), none) :=
  parse_nil_destination_fails "s" []
    [Node.element { Space := "s", Local := "Body" } []
      [Node.element { Space := "", Local := "X" } [] []]] rfl

/-- Counterexample to C6 as stated: a content value whose marshalled
element is a SOAP-envelope-namespace `Fault` (expressible in Go, e.g. a
`Fault` value as content) serializes fine, but parsing the result back
returns a fault error instead of the content and no error. -/
theorem roundtrip_fails_on_fault_content :
    (Parse (Request.Serialize (NewRequest "p"
        (some (Node.element { Space := soapNamespace, Local := "Fault" } [] []))
        (some [Node.element { Space := "", Local := "H1" } [] [],
               Node.element { Space := "", Local := "H2" } [] []]) []))
      (some (Node.text "init"))).1 =
      some (SoapErr.faultErr { Code := "", Actor := "", Detail := "", String := "" }) := rfl

/-- Claim C6 as amended: for every header pair `[h1, h2]` and content
value whose marshalled element is NOT a SOAP-envelope-namespace `Fault`,
constructing, serializing and parsing back yields exactly the content
element in the destination and no error. -/
theorem serialize_parse_roundtrip (path : String) (opts : List (Request → Request))
    (h1 h2 : Node) (cn : XName) (ca : List XAttr) (cc : List Node) (d0 : Node)
    (hn : (cn.Space == soapNamespace && cn.Local == "Fault") = false) :
    Parse (Request.Serialize
        (NewRequest path (some (Node.element cn ca cc)) (some [h1, h2]) opts))
      (some d0) =
      (none, some (Node.element cn ca cc)) := by
  have hs : Request.Serialize
      (NewRequest path (some (Node.element cn ca cc)) (some [h1, h2]) opts) =
      mkEnvelopeDoc "soapenv" [defaultSoapenvAttr]
        [Node.element { Space := "soapenv", Local := "Header" } [] [h1, h2]]
        "soapenv" [] [Node.element cn ca cc] [] := rfl
  rw [hs, Parse_one_body "soapenv" [defaultSoapenvAttr]
        [Node.element { Space := "soapenv", Local := "Header" } [] [h1, h2]]
        "soapenv" [] [Node.element cn ca cc] [] d0 rfl rfl]
  have hb : bodyLoop false none d0 [Node.element cn ca cc] =
      { err := none, Fault := none, dest := Node.element cn ca cc } := by
    have := bodyLoop_single [] rfl cn ca cc [] rfl none d0
    rw [List.nil_append] at this
    rw [this, if_neg]
    simp [hn]
  rw [hb]

/-- Witness for C6 (amended) at a concrete request. -/
theorem serialize_parse_roundtrip_witness :
    Parse (Request.Serialize (NewRequest "p"
        (some (Node.element { Space := "", Local := "Op" } [] [Node.text "hi"]))
        (some [Node.element { Space := "", Local := "H1" } [] [],
               Node.element { Space := "", Local := "H2" } [] []]) []))
      (some (Node.text "init")) =
      (none, some (Node.element { Space := "", Local := "Op" } [] [Node.text "hi"])) :=
  serialize_parse_roundtrip "p" []
    (Node.element { Space := "", Local := "H1" } [] [])
    (Node.element { Space := "", Local := "H2" } [] [])
    { Space := "", Local := "Op" } [] [Node.text "hi"] (Node.text "init") rfl

/-- Claim C7 (code bug): the source's `NewRequest` declares an `options`
parameter but never applies it, so constructing with an explicit
`soapenv` attribute via `AddAttributes` leaves the serialized root's
reserved attribute at the default value instead of `"X"`; the
`AddAttributes` closure itself, when applied, does perform the
replacement the spec describes. -/
theorem newRequest_ignores_options :
    (NewRequest "p" (some (Node.element { Space := "", Local := "Op" } [] [])) none
        [AddAttributes [{ name := { Space := "", Local := "soapenv" }, value := "X" }]]).Attributes =
      [defaultSoapenvAttr] ∧
    rootAttrs (Request.Serialize (NewRequest "p"
        (some (Node.element { Space := "", Local := "Op" } [] [])) none
        [AddAttributes [{ name := { Space := "", Local := "soapenv" }, value := "X" }]])) =
      [defaultSoapenvAttr] ∧
    (AddAttributes [{ name := { Space := "", Local := "soapenv" }, value := "X" }]
        (NewRequest "p" (some (Node.element { Space := "", Local := "Op" } [] [])) none [])).Attributes =
      [{ name := { Space := "", Local := "soapenv" }, value := "X" }] :=
  ⟨rfl, rfl, rfl⟩

/-- Claim C8: the outbound `User-Agent` header is the per-request value
when non-empty, else the client default when non-empty, else `"Go"`; the
same layering holds for `Content-Type` with hardcoded fallback
`text/xml; charset="utf-8"`. -/
theorem call_header_precedence (soapReq : Request) (c : Client) :
    (soapReq.userAgent ≠ "" → callUserAgent soapReq c = soapReq.userAgent) ∧
    (soapReq.userAgent = "" → c.userAgent ≠ "" → callUserAgent soapReq c = c.userAgent) ∧
    (soapReq.userAgent = "" → c.userAgent = "" → callUserAgent soapReq c = "Go") ∧
    (soapReq.contentType ≠ "" → callContentType soapReq c = soapReq.contentType) ∧
    (soapReq.contentType = "" → c.contentType ≠ "" →
      callContentType soapReq c = c.contentType) ∧
    (soapReq.contentType = "" → c.contentType = "" →
      callContentType soapReq c = "text/xml; charset=\"utf-8\"") := by
  refine ⟨?_, ?_, ?_, ?_, ?_, ?_⟩
  · intro h
    rw [callUserAgent, if_pos (bne_iff_ne.mpr h)]
  · intro h h2
    rw [callUserAgent, if_neg (by simp [h]), if_pos (bne_iff_ne.mpr h2)]
  · intro h h2
    rw [callUserAgent, if_neg (by simp [h]), if_neg (by simp [h2])]
  · intro h
    rw [callContentType, if_pos (bne_iff_ne.mpr h)]
  · intro h h2
    rw [callContentType, if_neg (by simp [h]), if_pos (bne_iff_ne.mpr h2)]
  · intro h h2
    rw [callContentType, if_neg (by simp [h]), if_neg (by simp [h2])]

/-- Witness for C8: per-request `"B"` beats client default `"A"`, and the
content type falls back when neither level sets it. -/
theorem call_header_precedence_witness :
    callUserAgent (UserAgent "B" (NewRequest "" none none []))
        { base := "", debug := false, username := "", password := "", bearerToken := "",
          userAgent := "A", contentType := "", action := "" } = "B" ∧
    callContentType (UserAgent "B" (NewRequest "" none none []))
        { base := "", debug := false, username := "", password := "", bearerToken := "",
          userAgent := "A", contentType := "", action := "" } =
      "text/xml; charset=\"utf-8\"" := by
  constructor
  · exact (call_header_precedence (UserAgent "B" (NewRequest "" none none []))
      { base := "", debug := false, username := "", password := "", bearerToken := "",
        userAgent := "A", contentType := "", action := "" }).1 (by decide)
  · exact (call_header_precedence (UserAgent "B" (NewRequest "" none none []))
      { base := "", debug := false, username := "", password := "", bearerToken := "",
        userAgent := "A", contentType := "", action := "" }).2.2.2.2.2 rfl rfl

/-- Applying one `AddAttributes` closure preserves the presence of a
`soapenv`-named attribute. -/
theorem addAttributes_keeps_soapenv (as : List XAttr) (r : Request)
    (h : r.Attributes.any (fun a => a.name.Local == "soapenv") = true) :
    ((AddAttributes as r).Attributes.any (fun a => a.name.Local == "soapenv")) = true := by
  rw [AddAttributes]
  simp only
  by_cases hf : as.any (fun a => a.name.Local == "soapenv") = true
  · rw [hf]
    simp only [if_true, List.any_append]
    rw [hf, Bool.or_true]
  · rw [Bool.not_eq_true] at hf
    rw [hf]
    simp only [Bool.false_eq_true, if_false, List.any_append]
    rw [h, Bool.true_or]

/-- Folding any sequence of `AddAttributes` applications preserves the
`soapenv` attribute presence invariant. -/
theorem foldl_addAttributes_keeps (adds : List (List XAttr)) (r : Request)
    (h : r.Attributes.any (fun a => a.name.Local == "soapenv") = true) :
    ((adds.foldl (fun r0 as => AddAttributes as r0) r).Attributes.any
        (fun a => a.name.Local == "soapenv")) = true := by
  induction adds generalizing r with
  | nil => exact h
  | cons as rest ih =>
    rw [List.foldl_cons]
    exact ih (AddAttributes as r) (addAttributes_keeps_soapenv as r h)

/-- Claim C9: every `Request` produced by `NewRequest` followed by any
sequence of `AddAttributes` applications keeps at least one attribute
with local name `soapenv` in its attribute list. -/
theorem attributes_always_contain_soapenv (path : String) (body : Option Node)
    (header : Option (List Node)) (opts : List (Request → Request))
    (adds : List (List XAttr)) :
    ((adds.foldl (fun r0 as => AddAttributes as r0) (NewRequest path body header opts)).Attributes.any
        (fun a => a.name.Local == "soapenv")) = true := by
  apply foldl_addAttributes_keeps
  cases header <;> rfl

/-- Counterexample to C10 as stated: when the foreign-namespace `Fault`
element is followed by a second body element, `Parse` returns the WS-I
error rather than no error, so the claim's unconditional "returns no
error" fails. -/
theorem foreign_fault_second_element_errors :
    (Parse (mkEnvelopeDoc "s" [] [] "s" []
        [Node.element { Space := "other", Local := "Fault" } [] [],
         Node.element { Space := "", Local := "X" } [] []] [])
      (some (Node.text "init"))).1 =
      some (SoapErr.decodeErr multipleElementsMsg) := rfl

/-- Claim C10 as amended: a body whose ONLY child element has local name
`Fault` but a namespace other than the SOAP envelope namespace is not
treated as a protocol fault: the element is decoded into the destination
as ordinary application content and `Parse` returns no error. -/
theorem parse_foreign_fault_as_content (espace : String) (eattrs : List XAttr)
    (pre post : List Node) (bspace : String) (battrs : List XAttr)
    (t1 t2 : List Node) (sp : String) (fattrs : List XAttr) (cs : List Node) (d0 : Node)
    (hpre : noBodyElem pre = true) (hpost : noBodyElem post = true)
    (ht1 : countElems t1 = 0) (ht2 : countElems t2 = 0)
    (hsp : (sp == soapNamespace) = false) :
    Parse (mkEnvelopeDoc espace eattrs pre bspace battrs
        (t1 ++ Node.element { Space := sp, Local := "Fault" } fattrs cs :: t2) post)
      (some d0) =
      (none, some (Node.element { Space := sp, Local := "Fault" } fattrs cs)) := by
  rw [Parse_one_body espace eattrs pre bspace battrs _ post d0 hpre hpost,
      bodyLoop_single t1 ht1 _ fattrs cs t2 ht2]
  simp [hsp]

/-- Witness for C10 (amended) at a concrete foreign-namespace Fault. -/
theorem parse_foreign_fault_as_content_witness :
    Parse (mkEnvelopeDoc "soapenv" [] [] "soapenv" []
        ([] ++ Node.element { Space := "other", Local := "Fault" } []
            [Node.text "payload"] :: []) [])
      (some (Node.text "init")) =
      (none, some (Node.element { Space := "other", Local := "Fault" } []
        [Node.text "payload"])) :=
  parse_foreign_fault_as_content "soapenv" [] [] [] "soapenv" [] [] [] "other" []
    [Node.text "payload"] (Node.text "init") rfl rfl rfl rfl rfl

end SoapClient
